import Mathlib

/-!
Shallow embedding of `docs_loader.py` (document-query-assistant).

Python strings are modelled as `List Char` (sequences of code points); the
few Python string primitives the program uses (`str.strip`, `str.lower`,
`str.split`, `os.path.join`, decimal rendering by `str(i)`) are translated
directly.  Fallible Python code is modelled with `Except PyErr`.  Console
and network effects are recorded in an explicit event trace.
-/

set_option autoImplicit false

namespace DocsLoader

/-- Python `str`, modelled as a list of code points. -/
abbrev Str := List Char

/-- The ASCII whitespace characters stripped by Python `str.strip()`
(space, tab, newline, carriage return, vertical tab, form feed). -/
def isPySpace (c : Char) : Bool :=
  c = ' ' || c = '\t' || c = '\n' || c = '\r' || c = '\x0b' || c = '\x0c'

/-- Python `s.strip()`: drop leading and trailing whitespace. -/
def pyStrip (s : Str) : Str :=
  ((s.dropWhile isPySpace).reverse.dropWhile isPySpace).reverse

/-- Python `s.lower()` (ASCII case folding, all the program compares). -/
def pyLower (s : Str) : Str := s.map Char.toLower

/-- Python `s.endswith(suffix)`. -/
def pyEndsWith (s suffix_ : Str) : Bool := suffix_.isSuffixOf s

/-- The decimal digit character for `d` (`chr(48 + d)` for `d < 10`). -/
def decDigit (d : Nat) : Char := Char.ofNat (48 + d)

/-- Fuelled decimal rendering: digits of `n`, most significant first,
empty for `n = 0`.  Any `fuel ≥ n` is enough. -/
def toDecAux : Nat → Nat → Str
  | 0, _ => []
  | fuel + 1, n => if n = 0 then [] else toDecAux fuel (n / 10) ++ [decDigit (n % 10)]

/-- Python `str(n)` for a natural number: decimal digits, `"0"` for zero. -/
def pyStr (n : Nat) : Str := if n = 0 then ['0'] else toDecAux (n + 1) n

/-- POSIX `os.path.join(a, b)`: `b` if absolute, else `a` and `b` joined
with a single `/`. -/
def pyJoin (a b : Str) : Str :=
  if b.head? = some '/' then b
  else if a = [] then a ++ b
  else if a.getLast? = some '/' then a ++ b
  else a ++ ('/' :: b)

/-- Python `dict` built from a list of key-value pairs (later bindings
overwrite earlier ones), queried with `d.get(k)`. -/
def pyDictGet (kvs : List (Str × Str)) (k : Str) : Option Str :=
  kvs.foldl (fun acc p => if p.1 = k then some p.2 else acc) none

/-! ### Console and error messages of `docs_loader.py` -/

/-- The quote character, `chr(39)`. -/
def quoteC : Char := Char.ofNat 39

def newSessionLine : Str :=
  "\n🔁 New Session (type ".data ++ [quoteC, 'q', quoteC] ++ " at any time to quit)".data
def goodbyeLine : Str := "👋 Exiting the app. Goodbye!".data
def availLine : Str := "\n📄 Available Documents:".data
def filePromptLine : Str := "\n📝 Enter the file ID you want to embed: ".data
def fnfMsg : Str := "❌ File not found.".data
def unsupportedMsg : Str := "❌ Unsupported file type. Only .txt and .pdf are supported.".data
def successLine : Str := "✅ Successfully embedded and stored in ChromaDB!".data
def queryPromptLine : Str := "\n❓ Ask something from your docs: ".data
def doneLine : Str := "📁 Done with this document.".data
def topResultsLine : Str := "\n🔍 Top Results:".data
def errPrefix : Str := "⚠️ Error: ".data
def keyMissingMsg : Str := "❌ JINA_API_KEY not found in .env file.".data
def eofMsg : Str := "EOF when reading a line".data
def dotPdf : Str := ".pdf".data
def dotTxt : Str := ".txt".data
def utf8Enc : Str := "utf8".data
def jinaModel : Str := "jina-embeddings-v3".data
def passageTask : Str := "retrieval.passage".data
def queryTask : Str := "retrieval.query".data
def dotSpace : Str := ". ".data

/-! ### Errors

Python exceptions raised (or propagated) by the program, as data. -/

inductive PyErr where
  | fileNotFound (msg : Str)
  | valueError (msg : Str)
  | httpError (msg : Str)
  | indexError (msg : Str)
  | eofError
  deriving DecidableEq

/-- Python `str(e)` for the exceptions above, as printed by the
outer-loop handler. -/
def PyErr.msg : PyErr → Str
  | .fileNotFound m => m
  | .valueError m => m
  | .httpError m => m
  | .indexError m => m
  | .eofError => eofMsg

/-- The line printed by `except Exception as e: print(f"⚠️ Error: {e}")`. -/
def errorLine (e : PyErr) : Str := errPrefix ++ e.msg

/-! ### Document Loader Factory (`DocumentLoaderFactory.get_loader`)

`PyPDFLoader(file_path)` and `TextLoader(file_path, encoding="utf8")` only
record the path at construction time (loading is deferred to `.load()`),
so a loader is modelled as a descriptor carrying the constructor
arguments; `get_loader` is pure dispatch on the extension. -/

inductive Loader where
  | pdf (path : Str)
  | text (path : Str) (encoding : Str)
  deriving DecidableEq

def get_loader (file_path : Str) : Except PyErr Loader :=
  if pyEndsWith (pyLower file_path) dotPdf then .ok (.pdf file_path)
  else if pyEndsWith (pyLower file_path) dotTxt then .ok (.text file_path utf8Enc)
  else .error (.valueError unsupportedMsg)

/-! ### Documents and the text splitter

`DocumentProcessor` wraps langchain's `CharacterTextSplitter`, whose
`split_text` (langchain `text_splitter.py`) splits on the default
separator `"\n\n"` (`re.split` with the escaped separator, empty pieces
dropped) and then greedily re-merges the pieces with `_merge_splits`,
joining with the separator and stripping whitespace (`_join_docs`).
Its warning log for oversized chunks produces no value and is omitted. -/

structure Doc where
  page_content : Str
  metadata : List (Str × Str)
  deriving DecidableEq

/-- Python `text.split("\n\n")`: non-overlapping left-to-right split on
two consecutive newlines, keeping empty pieces. -/
def splitNN : Str → Str → List Str
  | '\n' :: '\n' :: rest, acc => acc :: splitNN rest []
  | c :: rest, acc => splitNN rest (acc ++ [c])
  | [], acc => [acc]

/-- `TextSplitter._join_docs`: join with the separator, strip, drop if empty. -/
def joinDocs (ds : List Str) : Option Str :=
  let text := pyStrip (List.intercalate ('\n' :: ['\n']) ds)
  if text = [] then none else some text

/-- The `while` loop of `_merge_splits` that pops leading members of
`current_doc` while the running total exceeds the overlap (or the next
piece would not fit).  In Python the loop indexes `current_doc[0]`,
which is only reached when the list is non-empty (the running total is
zero when it is empty, and the loop condition then fails). -/
def popLoop (cs co sepLen dLen : Int) : List Str → Int → List Str × Int
  | [], total => ([], total)
  | d0 :: rest, total =>
    if total > co ∨ (total + dLen + sepLen > cs ∧ total > 0) then
      popLoop cs co sepLen dLen rest
        (total - ((d0.length : Int) + if rest = [] then 0 else sepLen))
    else (d0 :: rest, total)

/-- The `for d in splits` loop of `TextSplitter._merge_splits`:
arguments are the remaining splits, the current window `current_doc`,
the running `total`, and the accumulated output `docs`. -/
def mergeAux (cs co sepLen : Int) : List Str → List Str → Int → List Str → List Str
  | [], curDoc, _total, docsAcc =>
    (match joinDocs curDoc with
     | none => docsAcc
     | some doc => docsAcc ++ [doc])
  | d :: ds, curDoc, total, docsAcc =>
    let dLen : Int := d.length
    let next :=
      if total + dLen + (if curDoc = [] then 0 else sepLen) > cs then
        if curDoc = [] then (docsAcc, curDoc, total)
        else
          let docsAcc2 :=
            match joinDocs curDoc with
            | none => docsAcc
            | some doc => docsAcc ++ [doc]
          let popped := popLoop cs co sepLen dLen curDoc total
          (docsAcc2, popped.1, popped.2)
      else (docsAcc, curDoc, total)
    mergeAux cs co sepLen ds (next.2.1 ++ [d])
      (next.2.2 + dLen + if next.2.1 = [] then 0 else sepLen) next.1

/-- `CharacterTextSplitter.split_text` with separator `"\n\n"`:
split, drop empty pieces, merge back into chunks. -/
def splitText (cs co : Int) (text : Str) : List Str :=
  let splits := (splitNN text []).filter (fun s => !s.isEmpty)
  mergeAux cs co 2 splits [] 0 []

/-- `TextSplitter.split_documents` / `create_documents`: each chunk of a
page keeps (a copy of) that page's metadata. -/
def split_documents (cs co : Int) (docs : List Doc) : List Doc :=
  docs.flatMap fun d => (splitText cs co d.page_content).map fun c => ⟨c, d.metadata⟩

/-- The chunk identifier `f"doc_{i}"`. -/
def docId (i : Nat) : Str := "doc_".data ++ pyStr i

/-- `DocumentProcessor.process` after `loader.load()` produced `docs`
(defaults: `chunk_size=512`, `chunk_overlap=50`):
returns `(texts, metadatas, ids)`. -/
def process (cs co : Int) (docs : List Doc) : List Str × List (List (Str × Str)) × List Str :=
  let chunks := split_documents cs co docs
  let texts := chunks.map Doc.page_content
  (texts, chunks.map Doc.metadata, (List.range texts.length).map docId)

/-! ### Embedding client (`JinaAIEmbeddings`)

The embedding values themselves are opaque to this program (it only
ferries them between the API and the store), so the float payload is
modelled by an abstract decidable carrier.  The HTTP endpoint is an
oracle `ApiRequest → Except PyErr ApiResponse`; a non-success status
from `raise_for_status` or a malformed body is the oracle's `.error`. -/

abbrev EmbVector := List Int

structure ApiItem where
  embedding : EmbVector
  deriving DecidableEq

structure ApiResponse where
  data : List ApiItem
  deriving DecidableEq

/-- The JSON payload `{model, task, input}`. -/
structure ApiRequest where
  model : Str
  task : Str
  input : List Str
  deriving DecidableEq

abbrev ApiOracle := ApiRequest → Except PyErr ApiResponse

def docRequest (texts : List Str) : ApiRequest := ⟨jinaModel, passageTask, texts⟩

def queryRequest (text : Str) : ApiRequest := ⟨jinaModel, queryTask, [text]⟩

/-- `JinaAIEmbeddings.embed_documents`:
`[item["embedding"] for item in data["data"]]`. -/
def embed_documents (api : ApiOracle) (texts : List Str) : Except PyErr (List EmbVector) :=
  match api (docRequest texts) with
  | .error e => .error e
  | .ok resp => .ok (resp.data.map ApiItem.embedding)

/-- `JinaAIEmbeddings.embed_query`: `data["data"][0]["embedding"]`
(`IndexError` when the response carries no item). -/
def embed_query (api : ApiOracle) (text : Str) : Except PyErr EmbVector :=
  match api (queryRequest text) with
  | .error e => .error e
  | .ok resp =>
    match resp.data with
    | [] => .error (.indexError ("list index out of range".data))
    | item :: _ => .ok item.embedding

/-! ### Vector store (`ChromaDBStore`)

Modelled from the spec: the chromadb collection is external library
code; per the spec's contract its `add` inserts one record per index
across four equal-length parallel lists (validating the lengths), and
its `query` returns up to `n_results` stored texts ranked by the
store's own similarity search, clamping `n_results` to the collection
size (so an empty store yields an empty result list).  The ranking is
an oracle parameter. -/

structure Record where
  text : Str
  meta : List (Str × Str)
  id : Str
  emb : EmbVector
  deriving DecidableEq

structure Collection where
  recs : List Record
  deriving DecidableEq

def emptyCollection : Collection := ⟨[]⟩

abbrev RankOracle := List Record → EmbVector → List Record

def zipRecords : List Str → List (List (Str × Str)) → List Str → List EmbVector → List Record
  | t :: ts, m :: ms, i :: is, e :: es => ⟨t, m, i, e⟩ :: zipRecords ts ms is es
  | _, _, _, _ => []

/-- `ChromaDBStore.add_documents` (chroma validates that the four
parallel lists have equal lengths before inserting). -/
def add_documents (col : Collection) (texts : List Str) (metadatas : List (List (Str × Str)))
    (ids : List Str) (embeddings : List EmbVector) : Except PyErr Collection :=
  if texts.length = metadatas.length ∧ texts.length = ids.length ∧
      texts.length = embeddings.length then
    .ok ⟨col.recs ++ zipRecords texts metadatas ids embeddings⟩
  else
    .error (.valueError ("Unequal lengths for fields in add.".data))

/-- The nested result lists of `collection.query` (`results['documents']`
holds one list of texts per query embedding; one embedding is passed). -/
structure QueryResult where
  documents : List (List Str)
  deriving DecidableEq

/-- `ChromaDBStore.query_documents`: rank the stored records against the
query embedding and return up to `n_results` texts (clamped to the
collection size). -/
def query_documents (rank : RankOracle) (col : Collection) (qe : EmbVector)
    (nResults : Nat) : QueryResult :=
  ⟨[((rank col.recs qe).take (min nResults col.recs.length)).map Record.text]⟩

/-! ### Console interface and session controller

Console I/O and ingestion side effects are recorded as an event trace;
user input is a finite script of lines, `input()` on an exhausted
script being end-of-file (`EOFError`). -/

inductive Ev where
  | print (line : Str)
  | readInput
  | loadCall (l : Loader)
  | apiCall (r : ApiRequest)
  deriving DecidableEq

abbrev Trace := List Ev

/-- `True` iff the trace contains no ingestion effect (no `loader.load()`
and no embedding-API call). -/
def noIngestion (t : Trace) : Bool :=
  t.all fun e =>
    match e with
    | .loadCall _ => false
    | .apiCall _ => false
    | _ => true

/-- A directory entry of `os.listdir` together with its
`os.path.isfile` status. -/
structure DirEntry where
  name : Str
  isFile : Bool
  deriving DecidableEq

/-- The dict comprehension of `UserInterface.choose_file`:
`{str(i + 1): f for i, f in enumerate(os.listdir(dir)) if isfile(...)}`.
The enumeration index `i` runs over **all** entries, filtered to
regular files afterwards; `k` is the index offset. -/
def filesAux (k : Nat) : List DirEntry → List (Str × Str)
  | [] => []
  | e :: rest => (if e.isFile then [(pyStr (k + 1), e.name)] else []) ++ filesAux (k + 1) rest

def filesOf (listing : List DirEntry) : List (Str × Str) := filesAux 0 listing

/-- The selection ids shown by `choose_file` (keys of the dict, in order). -/
def displayedIds (listing : List DirEntry) : List Str := (filesOf listing).map Prod.fst

/-- The 0-based positions of the regular files inside the full listing. -/
def fileIdxsAux (k : Nat) : List DirEntry → List Nat
  | [] => []
  | e :: rest => (if e.isFile then [k] else []) ++ fileIdxsAux (k + 1) rest

def fileIdxs (listing : List DirEntry) : List Nat := fileIdxsAux 0 listing

/-- `UserInterface.choose_file` over the directory `dir` with entries
`listing`, consuming one scripted input: prints the file menu, looks the
stripped input up in the dict, raises `FileNotFoundError` when absent,
and otherwise returns `os.path.join(dir, file_name)`. -/
def choose_file (dir : Str) (listing : List DirEntry) (inputs : List Str) :
    Trace × List Str × Except PyErr Str :=
  let files := filesOf listing
  let t0 : Trace := Ev.print availLine ::
    files.map (fun p => Ev.print (p.1 ++ dotSpace ++ p.2)) ++ [Ev.print filePromptLine]
  match inputs with
  | [] => (t0, [], .error .eofError)
  | inp :: rest =>
    match pyDictGet files (pyStrip inp) with
    | none => (t0 ++ [Ev.readInput], rest, .error (.fileNotFound fnfMsg))
    | some name => (t0 ++ [Ev.readInput], rest, .ok (pyJoin dir name))

/-- `UserInterface.display_results`: header, then each returned text,
1-indexed (`results['documents'][0]` raises `IndexError` on an empty
outer list). -/
def displayResults (r : QueryResult) : Trace × Except PyErr Unit :=
  match r.documents with
  | [] => ([Ev.print topResultsLine], .error (.indexError ("list index out of range".data)))
  | docs0 :: _ =>
    (Ev.print topResultsLine ::
      docs0.enum.map (fun p =>
        Ev.print ("\nResult ".data ++ pyStr (p.1 + 1) ++ ":\n".data ++ p.2)), .ok ())

/-- The environment the components run against: the program directory
and its entries, the filesystem loading oracle, the embedding API
oracle, and the store's ranking oracle. -/
structure World where
  dirName : Str
  listing : List DirEntry
  load : Loader → Except PyErr (List Doc)
  api : ApiOracle
  rank : RankOracle

/-- The inner query loop of `AppController.run` (steps 4): consumes
scripted inputs until `q`, an exception, or end of script.  Returns the
trace, the remaining inputs, and `.ok` on a clean `q` break. -/
def innerLoop (w : World) (col : Collection) : List Str → Trace × List Str × Except PyErr Unit
  | [] => ([Ev.print queryPromptLine], [], .error .eofError)
  | qRaw :: rest =>
    let t0 : Trace := [Ev.print queryPromptLine, Ev.readInput]
    let query := pyStrip qRaw
    if pyStrip (pyLower query) = ['q'] then
      (t0 ++ [Ev.print doneLine], rest, .ok ())
    else
      let t1 : Trace := [Ev.apiCall (queryRequest query)]
      match embed_query w.api query with
      | .error e => (t0 ++ t1, rest, .error e)
      | .ok qe =>
        let results := query_documents w.rank col qe 3
        let disp := displayResults results
        match disp.2 with
        | .error e => (t0 ++ t1 ++ disp.1, rest, .error e)
        | .ok _ =>
          let next := innerLoop w col rest
          (t0 ++ t1 ++ disp.1 ++ next.1, next.2.1, next.2.2)

/-- The `try:` body of one outer-loop iteration of `AppController.run`:
session banner, file selection, the (unreachable-by-input) `q` check on
the *returned path*, loader dispatch, load, split, embed, store, then
the inner query loop.  Returns the trace, remaining inputs, the store
after the iteration, and `.ok exitFlag` or the escaping exception. -/
def runIterationBody (w : World) (col : Collection) (inputs : List Str) :
    Trace × List Str × Collection × Except PyErr Bool :=
  let t0 : Trace := [Ev.print newSessionLine]
  let c := choose_file w.dirName w.listing inputs
  match c.2.2 with
  | .error e => (t0 ++ c.1, c.2.1, col, .error e)
  | .ok path =>
    if pyStrip (pyLower path) = ['q'] then
      (t0 ++ c.1 ++ [Ev.print goodbyeLine], c.2.1, col, .ok true)
    else
      match get_loader path with
      | .error e => (t0 ++ c.1, c.2.1, col, .error e)
      | .ok loader =>
        let tL : Trace := [Ev.loadCall loader]
        match w.load loader with
        | .error e => (t0 ++ c.1 ++ tL, c.2.1, col, .error e)
        | .ok docs =>
          let p := process 512 50 docs
          let tE : Trace := [Ev.apiCall (docRequest p.1)]
          match embed_documents w.api p.1 with
          | .error e => (t0 ++ c.1 ++ tL ++ tE, c.2.1, col, .error e)
          | .ok embs =>
            match add_documents col p.1 p.2.1 p.2.2 embs with
            | .error e => (t0 ++ c.1 ++ tL ++ tE, c.2.1, col, .error e)
            | .ok col2 =>
              let tS : Trace := [Ev.print successLine]
              let inner := innerLoop w col2 c.2.1
              match inner.2.2 with
              | .error e => (t0 ++ c.1 ++ tL ++ tE ++ tS ++ inner.1, inner.2.1, col2, .error e)
              | .ok _ => (t0 ++ c.1 ++ tL ++ tE ++ tS ++ inner.1, inner.2.1, col2, .ok false)

/-- The outcome of one outer-loop iteration after the
`except Exception` boundary. -/
structure StepResult where
  trace : Trace
  remaining : List Str
  store : Collection
  exit : Bool
  deriving DecidableEq

/-- One outer-loop iteration of `AppController.run` including its
`except Exception as e: print(...)` handler: an escaping exception is
printed and the loop continues (`exit = false`). -/
def runStep (w : World) (col : Collection) (inputs : List Str) : StepResult :=
  let b := runIterationBody w col inputs
  match b.2.2.2 with
  | .ok flag => ⟨b.1, b.2.1, b.2.2.1, flag⟩
  | .error e => ⟨b.1 ++ [Ev.print (errorLine e)], b.2.1, b.2.2.1, false⟩

/-- `AppController.run`: iterate `runStep` until the loop breaks (the
fuel bounds the number of outer iterations considered; the Python loop
itself is unbounded). -/
def runLoop (w : World) : Collection → List Str → Nat → Trace
  | _, _, 0 => []
  | col, inputs, fuel + 1 =>
    let s := runStep w col inputs
    if s.exit then s.trace
    else s.trace ++ runLoop w s.store s.remaining fuel

/-- `main()`: the credential is read from the environment (`none` when
unset; Python treats the empty string as missing too, via `if not
api_key`) and checked before the controller is constructed; only then
does the session loop run. -/
def mainModel (apiKey : Option Str) (w : World) (inputs : List Str) (fuel : Nat) :
    Trace × Except PyErr Unit :=
  match apiKey with
  | none => ([], .error (.valueError keyMissingMsg))
  | some key =>
    if key = [] then ([], .error (.valueError keyMissingMsg))
    else (runLoop w emptyCollection inputs fuel, .ok ())

/-! ### Concrete fixtures used by witnesses and counterexamples -/

/-- A directory whose first entry is a subdirectory and whose second is
the only regular file. -/
def listing2 : List DirEntry := [⟨"subdir".data, false⟩, ⟨"a.txt".data, true⟩]

/-- A world whose directory holds a single regular file; its filesystem
and network oracles always fail (they are never reached on the paths
exercised). -/
def w0 : World :=
  ⟨"/app/docs".data, [⟨"docs_loader.py".data, true⟩],
   fun _ => .error (.valueError []), fun _ => .error (.httpError []), fun r _ => r⟩

/-- A world whose directory listing is empty, so any selection fails. -/
def wErr : World :=
  ⟨"/app/docs".data, [], fun _ => .error (.valueError []),
   fun _ => .error (.httpError []), fun r _ => r⟩

/-- An embedding API oracle answering every request with one vector per
input string, in input order. -/
def apiW : ApiOracle := fun req => .ok ⟨req.input.map fun t => ⟨[(t.length : Int)]⟩⟩

def txW : List Str := ["ab".data, "c".data]

/-- The per-text embedding `apiW` realizes. -/
def embW (t : Str) : EmbVector := [(t.length : Int)]

/-- A 1000-character text with no separator anywhere. -/
def aTxt : Str := List.replicate 1000 'a'

/-! ### Facts about the decimal rendering `pyStr` -/

theorem toDecAux_ne_nil : ∀ fuel n, n ≠ 0 → n ≤ fuel → toDecAux fuel n ≠ [] := by
  intro fuel n hn hle
  cases fuel with
  | zero => omega
  | succ f =>
    simp only [toDecAux, if_neg hn]
    simp

theorem toDecAux_inj : ∀ a f g b, a ≤ f → b ≤ g →
    toDecAux f a = toDecAux g b → a = b := by
  intro a
  induction a using Nat.strong_induction_on with
  | _ a ih =>
    intro f g b haf hbg heq
    by_cases ha : a = 0
    · subst ha
      by_cases hb : b = 0
      · exact hb.symm
      · exfalso
        have h1 : toDecAux f 0 = [] := by cases f <;> simp [toDecAux]
        exact toDecAux_ne_nil g b hb hbg (heq.symm.trans h1)
    · by_cases hb : b = 0
      · exfalso
        subst hb
        have h1 : toDecAux g 0 = [] := by cases g <;> simp [toDecAux]
        exact toDecAux_ne_nil f a ha haf (heq.trans h1)
      · obtain ⟨f', rfl⟩ : ∃ f', f = f' + 1 := ⟨f - 1, by omega⟩
        obtain ⟨g', rfl⟩ : ∃ g', g = g' + 1 := ⟨g - 1, by omega⟩
        simp only [toDecAux, if_neg ha, if_neg hb] at heq
        have heq' := congrArg List.reverse heq
        simp only [List.reverse_append, List.reverse_cons, List.reverse_nil,
          List.nil_append, List.cons_append] at heq'
        have hdig : decDigit (a % 10) = decDigit (b % 10) := (List.cons.injEq _ _ _ _ ▸ heq').1
        have htail : (toDecAux f' (a / 10)).reverse = (toDecAux g' (b / 10)).reverse :=
          (List.cons.injEq _ _ _ _ ▸ heq').2
        have hmod : a % 10 = b % 10 := by
          have hd : ∀ x, x < 10 → ∀ y, y < 10 → decDigit x = decDigit y → x = y := by decide
          exact hd _ (Nat.mod_lt _ (by omega)) _ (Nat.mod_lt _ (by omega)) hdig
        have hdiv : a / 10 = b / 10 := by
          have hlt : a / 10 < a := Nat.div_lt_self (by omega) (by omega)
          exact ih (a / 10) hlt f' g' (b / 10) (by omega)
            (by have : b / 10 < b := Nat.div_lt_self (by omega) (by omega); omega)
            (List.reverse_injective htail)
        omega

theorem pyStr_inj : Function.Injective pyStr := by
  intro a b heq
  unfold pyStr at heq
  by_cases ha : a = 0 <;> by_cases hb : b = 0
  · omega
  · exfalso
    rw [if_pos ha, if_neg hb] at heq
    obtain ⟨g', hg⟩ : ∃ g', b + 1 = g' + 1 := ⟨b, rfl⟩
    rw [hg] at heq
    simp only [toDecAux, if_neg hb] at heq
    have hrev := congrArg List.reverse heq
    simp only [List.reverse_append, List.reverse_cons, List.reverse_nil,
      List.nil_append, List.cons_append, List.reverse_singleton] at hrev
    have h0 : '0' = decDigit (b % 10) := (List.cons.injEq _ _ _ _ ▸ hrev).1
    have htail : ([] : Str) = (toDecAux g' (b / 10)).reverse := by
      have := (List.cons.injEq _ _ _ _ ▸ hrev).2
      simpa using this
    have hb10 : b / 10 = 0 := by
      by_contra hne
      exact toDecAux_ne_nil g' (b / 10) hne (by omega)
        (by simpa using htail.symm)
    have hmod : b % 10 = 0 := by
      have hd : ∀ y, y < 10 → '0' = decDigit y → y = 0 := by decide
      exact hd _ (Nat.mod_lt _ (by omega)) h0
    omega
  · exfalso
    rw [if_neg ha, if_pos hb] at heq
    obtain ⟨f', hf⟩ : ∃ f', a + 1 = f' + 1 := ⟨a, rfl⟩
    rw [hf] at heq
    simp only [toDecAux, if_neg ha] at heq
    have hrev := congrArg List.reverse heq
    simp only [List.reverse_append, List.reverse_cons, List.reverse_nil,
      List.nil_append, List.cons_append, List.reverse_singleton] at hrev
    have h0 : decDigit (a % 10) = '0' := (List.cons.injEq _ _ _ _ ▸ hrev).1
    have htail : (toDecAux f' (a / 10)).reverse = ([] : Str) := by
      have := (List.cons.injEq _ _ _ _ ▸ hrev).2
      simpa using this
    have ha10 : a / 10 = 0 := by
      by_contra hne
      exact toDecAux_ne_nil f' (a / 10) hne (by omega)
        (by simpa using htail)
    have hmod : a % 10 = 0 := by
      have hd : ∀ y, y < 10 → decDigit y = '0' → y = 0 := by decide
      exact hd _ (Nat.mod_lt _ (by omega)) h0
    omega
  · rw [if_neg ha, if_neg hb] at heq
    exact toDecAux_inj a (a + 1) (b + 1) b (by omega) (by omega) heq

/-! ### The dict built by `choose_file` -/

theorem dictFold_eq_acc (k : Str) : ∀ (kvs : List (Str × Str)) (acc : Option Str),
    (∀ p ∈ kvs, p.1 ≠ k) →
    kvs.foldl (fun acc p => if p.1 = k then some p.2 else acc) acc = acc := by
  intro kvs
  induction kvs with
  | nil => intro acc _; rfl
  | cons p rest ih =>
    intro acc h
    simp only [List.foldl_cons, if_neg (h p (by simp))]
    exact ih acc fun q hq => h q (by simp [hq])

theorem dictFold_mem (k : Str) (v : Str) : ∀ (kvs : List (Str × Str)) (acc : Option Str),
    (kvs.map Prod.fst).Nodup → (k, v) ∈ kvs →
    kvs.foldl (fun acc p => if p.1 = k then some p.2 else acc) acc = some v := by
  intro kvs
  induction kvs with
  | nil => intro acc _ h; simp at h
  | cons p rest ih =>
    intro acc hnd hmem
    simp only [List.map_cons, List.nodup_cons] at hnd
    rcases List.mem_cons.mp hmem with heq | htail
    · subst heq
      simp only [List.foldl_cons, if_pos rfl]
      refine dictFold_eq_acc k rest (some v) ?_
      intro q hq hq1
      exact hnd.1 (List.mem_map.mpr ⟨q, hq, hq1⟩)
    · simp only [List.foldl_cons]
      exact ih _ hnd.2 htail

theorem pyDictGet_none (kvs : List (Str × Str)) (k : Str)
    (h : ∀ p ∈ kvs, p.1 ≠ k) : pyDictGet kvs k = none :=
  dictFold_eq_acc k kvs none h

theorem pyDictGet_mem (kvs : List (Str × Str)) (k v : Str)
    (hnd : (kvs.map Prod.fst).Nodup) (hmem : (k, v) ∈ kvs) : pyDictGet kvs k = some v :=
  dictFold_mem k v kvs none hnd hmem

/-! ### The numbered file menu -/

theorem filesAux_keys_bound : ∀ (l : List DirEntry) (k : Nat) (s : Str),
    s ∈ (filesAux k l).map Prod.fst → ∃ m, k < m ∧ m ≤ k + l.length ∧ s = pyStr m := by
  intro l
  induction l with
  | nil => intro k s h; simp [filesAux] at h
  | cons e rest ih =>
    intro k s h
    simp only [filesAux] at h
    by_cases he : e.isFile
    · simp only [if_pos he, List.map_append, List.map_cons, List.map_nil] at h
      rcases List.mem_append.mp h with h1 | h2
      · exact ⟨k + 1, by omega, by simp only [List.length_cons]; omega, by simpa using h1⟩
      · obtain ⟨m, hm1, hm2, hm3⟩ := ih (k + 1) s h2
        exact ⟨m, by omega, by simp only [List.length_cons]; omega, hm3⟩
    · simp only [if_neg he, List.nil_append] at h
      obtain ⟨m, hm1, hm2, hm3⟩ := ih (k + 1) s h
      exact ⟨m, by omega, by simp only [List.length_cons]; omega, hm3⟩

theorem filesAux_keys_nodup : ∀ (l : List DirEntry) (k : Nat),
    ((filesAux k l).map Prod.fst).Nodup := by
  intro l
  induction l with
  | nil => intro k; simp [filesAux]
  | cons e rest ih =>
    intro k
    simp only [filesAux]
    by_cases he : e.isFile
    · simp only [if_pos he, List.map_append, List.map_cons, List.map_nil]
      refine List.Nodup.append (by simp) (ih (k + 1)) ?_
      intro s hs1 hs2
      obtain ⟨m, hm1, _, hm3⟩ := filesAux_keys_bound rest (k + 1) s hs2
      have : s = pyStr (k + 1) := by simpa using hs1
      exact absurd (pyStr_inj (this.symm.trans hm3)) (by omega)
    · simpa [if_neg he] using ih (k + 1)

theorem filesAux_mem : ∀ (l : List DirEntry) (k i : Nat) (h : i < l.length),
    (l.get ⟨i, h⟩).isFile = true →
    (pyStr (k + i + 1), (l.get ⟨i, h⟩).name) ∈ filesAux k l := by
  intro l
  induction l with
  | nil => intro k i h; simp at h
  | cons e rest ih =>
    intro k i h hfile
    cases i with
    | zero =>
      simp only [List.get] at hfile ⊢
      simp [filesAux, hfile]
    | succ j =>
      simp only [List.get] at hfile ⊢
      simp only [filesAux]
      have := ih (k + 1) j (by simpa using Nat.lt_of_succ_lt_succ h) hfile
      have harith : k + 1 + j + 1 = k + (j + 1) + 1 := by omega
      rw [harith] at this
      exact List.mem_append.mpr (Or.inr this)

theorem filesAux_ids : ∀ (l : List DirEntry) (k : Nat),
    (filesAux k l).map Prod.fst = (fileIdxsAux k l).map (fun i => pyStr (i + 1)) := by
  intro l
  induction l with
  | nil => intro k; simp [filesAux, fileIdxsAux]
  | cons e rest ih =>
    intro k
    by_cases he : e.isFile <;> simp [filesAux, fileIdxsAux, he, ih (k + 1)]

theorem fileIdxsAux_all_files : ∀ (l : List DirEntry) (k : Nat),
    (∀ e ∈ l, e.isFile = true) → fileIdxsAux k l = List.range' k l.length := by
  intro l
  induction l with
  | nil => intro k _; simp [fileIdxsAux]
  | cons e rest ih =>
    intro k h
    simp only [fileIdxsAux, if_pos (h e (by simp)), List.length_cons, List.range']
    simpa using ih (k + 1) fun q hq => h q (by simp [hq])

/-! ### Suffix dispatch -/

theorem pyEndsWith_iff (s suf : Str) : pyEndsWith s suf = true ↔ suf <:+ s := by
  unfold pyEndsWith
  exact List.isSuffixOf_iff_suffix

theorem suffix_eq_of_length {l s t : Str} (hs : s <:+ l) (ht : t <:+ l)
    (hlen : s.length = t.length) : s = t := by
  rw [← List.reverse_prefix] at hs ht
  have hp := List.prefix_of_prefix_length_le hs ht (by simp [hlen])
  exact List.reverse_injective (hp.eq_of_length (by simp [hlen]))

/-! ### The splitter on separator-free text -/

theorem splitNN_nosep : ∀ (s acc : Str), (∀ c ∈ s, c ≠ '\n') → splitNN s acc = [acc ++ s] := by
  intro s
  induction s with
  | nil => intro acc _; simp [splitNN]
  | cons c rest ih =>
    intro acc h
    have hc : c ≠ '\n' := h c (by simp)
    have hstep : splitNN (c :: rest) acc = splitNN rest (acc ++ [c]) := by
      simp [splitNN, hc]
    rw [hstep, ih (acc ++ [c]) fun x hx => h x (by simp [hx])]
    simp

theorem pyStrip_replicate (n : Nat) (c : Char) (h : isPySpace c = false) :
    pyStrip (List.replicate n c) = List.replicate n c := by
  have hdw : (List.replicate n c).dropWhile isPySpace = List.replicate n c := by
    cases n with
    | zero => simp
    | succ m => simp [List.replicate_succ, List.dropWhile_cons, h]
  unfold pyStrip
  rw [hdw, List.reverse_replicate]
  rw [hdw, List.reverse_replicate]

theorem joinDocs_singleton (s : Str) (h : pyStrip s = s) (hne : s ≠ []) :
    joinDocs [s] = some s := by
  unfold joinDocs
  simp only [List.intercalate, List.intersperse_singleton, List.flatten_cons,
    List.flatten_nil, List.append_nil, h]
  rw [if_neg hne]

theorem splitText_nosep (cs co : Int) (s : Str) (h1 : ∀ c ∈ s, c ≠ '\n')
    (h2 : pyStrip s = s) (h3 : s ≠ []) : splitText cs co s = [s] := by
  unfold splitText
  rw [splitNN_nosep s [] h1]
  have hemp : s.isEmpty = false := by
    cases s with | nil => exact absurd rfl h3 | cons a l => rfl
  have hfil : List.filter (fun t => !List.isEmpty t) [[] ++ s] = [s] := by
    simp [List.filter_cons, hemp]
  simp only [hfil]
  simp [mergeAux, joinDocs_singleton s h2 h3]

theorem docId_inj : Function.Injective docId := by
  intro a b h
  exact pyStr_inj (List.append_cancel_left h)

theorem aTxt_len : aTxt.length = 1000 := by
  show (List.replicate 1000 'a').length = 1000
  exact List.length_replicate 1000 'a'

theorem aTxt_ne_nil : aTxt ≠ [] := by
  intro hh
  have := aTxt_len
  rw [hh] at this
  simp at this

/-! ### The claims -/

/-- C1 (code-bug evidence): typing the literal `q` at the outer
file-choice prompt does not exit the session: `choose_file` looks the
input up among the numeric selection ids, finds nothing, and raises
`FileNotFoundError`; the outer handler prints the error and the loop
continues.  The goodbye message is never printed and no ingestion is
attempted, contradicting the specified `AwaitFileChoice → Exit on q`
transition. -/
theorem quit_input_is_swallowed :
    (runStep w0 emptyCollection ["q".data]).exit = false ∧
    Ev.print goodbyeLine ∉ (runStep w0 emptyCollection ["q".data]).trace ∧
    Ev.print (errorLine (.fileNotFound fnfMsg)) ∈ (runStep w0 emptyCollection ["q".data]).trace ∧
    noIngestion (runStep w0 emptyCollection ["q".data]).trace = true := by
  decide

/-- C2 counterexample: with a subdirectory listed before the only
regular file, the displayed selection id is `2`, not the contiguous
numbering `1..m` (here `1..1`) of the claim. -/
theorem choose_file_ids_counterexample :
    (listing2.filter fun e => e.isFile).length = 1 ∧
    displayedIds listing2 = [pyStr 2] ∧
    displayedIds listing2 ≠ (List.range' 1 1).map pyStr := by
  decide

/-- C2 (amended): `choose_file` lists exactly the regular files, but
numbers each by its 1-based position in the **full** directory listing
(contiguous `1..m` only when every listed entry is a regular file), and
a valid selection returns the program directory joined with the chosen
file's name. -/
theorem choose_file_listing_amended :
    (∀ listing, displayedIds listing = (fileIdxs listing).map (fun i => pyStr (i + 1))) ∧
    (∀ listing, (∀ e ∈ listing, e.isFile = true) →
      displayedIds listing = (List.range' 1 listing.length).map pyStr) ∧
    (∀ (dir : Str) (listing : List DirEntry) (inp : Str) (rest : List Str)
        (i : Nat) (h : i < listing.length),
      (listing.get ⟨i, h⟩).isFile = true → pyStrip inp = pyStr (i + 1) →
      (choose_file dir listing (inp :: rest)).2.2 =
        .ok (pyJoin dir (listing.get ⟨i, h⟩).name)) := by
  refine ⟨?_, ?_, ?_⟩
  · intro listing
    exact filesAux_ids listing 0
  · intro listing hall
    have h1 : displayedIds listing = (fileIdxsAux 0 listing).map (fun i => pyStr (i + 1)) :=
      filesAux_ids listing 0
    rw [h1, fileIdxsAux_all_files listing 0 hall]
    rw [List.range'_eq_map_range, List.range'_eq_map_range]
    simp only [List.map_map]
    refine List.map_congr_left ?_
    intro x _
    simp [Function.comp, Nat.add_comm]
  · intro dir listing inp rest i h hfile hinp
    have hmem := filesAux_mem listing 0 i h hfile
    have harith : (0 : Nat) + i + 1 = i + 1 := by omega
    rw [harith] at hmem
    have hget : pyDictGet (filesOf listing) (pyStrip inp) =
        some (listing.get ⟨i, h⟩).name := by
      rw [hinp]
      exact pyDictGet_mem _ _ _ (filesAux_keys_nodup listing 0) hmem
    simp [choose_file, hget]

/-- Witness for the amended C2: a directory of one regular file shows
id `1`, and selecting `1` returns the joined path. -/
theorem choose_file_listing_amended_witness :
    displayedIds [⟨"a.txt".data, true⟩] = (List.range' 1 1).map pyStr ∧
    (choose_file ("/d".data) [⟨"a.txt".data, true⟩] ["1".data, "x".data]).2.2 =
      .ok (pyJoin ("/d".data) ("a.txt".data)) := by
  constructor
  · exact choose_file_listing_amended.2.1 [⟨"a.txt".data, true⟩] (by decide)
  · have h := choose_file_listing_amended.2.2 ("/d".data) [⟨"a.txt".data, true⟩]
      ("1".data) ["x".data] 0 (by decide) (by decide) (by decide)
    simpa using h

/-- C3 counterexample: the splitter is not a fixed-stride window.  A
1000-character text with no blank-line separator yields one chunk of
length 1000 — not 3 chunks of length ≤ 512 at offsets 0/462/924. -/
theorem split_windowing_counterexample :
    splitText 512 50 aTxt = [aTxt] ∧
    (splitText 512 50 aTxt).length ≠ 3 ∧
    ¬ (∀ c ∈ splitText 512 50 aTxt, c.length ≤ 512) := by
  have h := splitText_nosep 512 50 aTxt
    (fun c hc => by rw [List.eq_of_mem_replicate hc]; decide)
    (pyStrip_replicate 1000 'a' (by decide))
    aTxt_ne_nil
  refine ⟨h, by rw [h]; decide, ?_⟩
  intro hall
  have hle := hall aTxt (by rw [h]; exact List.mem_singleton.mpr rfl)
  rw [aTxt_len] at hle
  omega

/-- C3 (amended): `CharacterTextSplitter` splits on the blank-line
separator `"\n\n"` and greedily re-merges the pieces, so a
separator-free text whose ends carry no whitespace is returned as one
single chunk equal to the whole text, whatever chunk size and overlap
are configured — there is no fixed `C−O` stride and no `≤ C` bound. -/
theorem split_no_separator_amended (cs co : Int) (s : Str)
    (h1 : ∀ c ∈ s, c ≠ '\n') (h2 : pyStrip s = s) (h3 : s ≠ []) :
    splitText cs co s = [s] :=
  splitText_nosep cs co s h1 h2 h3

/-- Witness for the amended C3 at the spec's own 1000-character
scenario. -/
theorem split_no_separator_amended_witness :
    splitText 512 50 aTxt = [aTxt] :=
  split_no_separator_amended 512 50 aTxt
    (fun c hc => by rw [List.eq_of_mem_replicate hc]; decide)
    (pyStrip_replicate 1000 'a' (by decide))
    aTxt_ne_nil

/-- C4: the identifiers returned by `process` are exactly
`doc_0 .. doc_{k-1}` in split order for the `k` produced chunks —
zero-based, contiguous, duplicate-free. -/
theorem process_ids_contiguous (cs co : Int) (docs : List Doc) :
    (process cs co docs).2.2 = (List.range (process cs co docs).1.length).map docId ∧
    ((process cs co docs).2.2).Nodup := by
  constructor
  · rfl
  · exact List.Nodup.map docId_inj (List.nodup_range _)

/-- C5: when the API responds successfully with one embedding object per
input in input order, `embed_documents` returns exactly one vector per
input text, in input order. -/
theorem embed_documents_order (api : ApiOracle) (texts : List Str)
    (resp : ApiResponse) (E : Str → EmbVector)
    (hok : api (docRequest texts) = .ok resp)
    (hdata : resp.data = texts.map fun t => ⟨E t⟩) :
    embed_documents api texts = .ok (texts.map E) ∧
    (texts.map E).length = texts.length := by
  constructor
  · unfold embed_documents
    rw [hok]
    show Except.ok (resp.data.map ApiItem.embedding) = Except.ok (texts.map E)
    rw [hdata, List.map_map]
    rfl
  · simp

/-- Witness for C5 at a two-element input list. -/
theorem embed_documents_order_witness :
    embed_documents apiW txW = .ok (txW.map embW) ∧ (txW.map embW).length = txW.length :=
  embed_documents_order apiW txW ⟨txW.map fun t => ⟨embW t⟩⟩ embW rfl rfl

/-- C6: every exception escaping the body of one outer-loop iteration
is caught at the loop boundary, printed, and the session continues
(`exit = false`); the only fatal failure is the missing (or empty)
startup credential, rejected before any UI output. -/
theorem run_catches_all :
    (∀ w col inputs e,
      (runIterationBody w col inputs).2.2.2 = .error e →
      runStep w col inputs =
        ⟨(runIterationBody w col inputs).1 ++ [Ev.print (errorLine e)],
         (runIterationBody w col inputs).2.1,
         (runIterationBody w col inputs).2.2.1, false⟩) ∧
    (∀ w inputs fuel, mainModel none w inputs fuel = ([], .error (.valueError keyMissingMsg))) ∧
    (∀ w inputs fuel, mainModel (some []) w inputs fuel =
      ([], .error (.valueError keyMissingMsg))) := by
  refine ⟨?_, ?_, ?_⟩
  · intro w col inputs e he
    have hstep : runStep w col inputs =
        match (runIterationBody w col inputs).2.2.2 with
        | .ok flag =>
          ⟨(runIterationBody w col inputs).1, (runIterationBody w col inputs).2.1,
           (runIterationBody w col inputs).2.2.1, flag⟩
        | .error e2 =>
          ⟨(runIterationBody w col inputs).1 ++ [Ev.print (errorLine e2)],
           (runIterationBody w col inputs).2.1,
           (runIterationBody w col inputs).2.2.1, false⟩ := rfl
    rw [hstep, he]
  · intro w inputs fuel; rfl
  · intro w inputs fuel; simp [mainModel]

/-- Witness for C6: a failing iteration (empty directory, selection
`1`) is caught and continues; an absent credential aborts with no
output. -/
theorem run_catches_all_witness :
    runStep wErr emptyCollection ["1".data] =
      ⟨(runIterationBody wErr emptyCollection ["1".data]).1 ++
         [Ev.print (errorLine (.fileNotFound fnfMsg))],
       (runIterationBody wErr emptyCollection ["1".data]).2.1,
       (runIterationBody wErr emptyCollection ["1".data]).2.2.1, false⟩ ∧
    mainModel none wErr ["1".data] 3 = ([], .error (.valueError keyMissingMsg)) :=
  ⟨run_catches_all.1 wErr emptyCollection ["1".data] (.fileNotFound fnfMsg) rfl,
   run_catches_all.2.1 wErr ["1".data] 3⟩

/-- C7: `get_loader` dispatches purely on the case-folded extension:
`.pdf` selects the PDF loader, `.txt` the UTF-8 text loader, and
anything else fails with the unsupported-file-type error (the loader
descriptors only record the path; no file is read here). -/
theorem get_loader_dispatch (path : Str) :
    (pyEndsWith (pyLower path) dotPdf = true → get_loader path = .ok (.pdf path)) ∧
    (pyEndsWith (pyLower path) dotTxt = true →
      get_loader path = .ok (.text path utf8Enc)) ∧
    (pyEndsWith (pyLower path) dotPdf = false → pyEndsWith (pyLower path) dotTxt = false →
      get_loader path = .error (.valueError unsupportedMsg)) := by
  refine ⟨?_, ?_, ?_⟩
  · intro h; simp [get_loader, h]
  · intro h
    have hnp : pyEndsWith (pyLower path) dotPdf = false := by
      cases hx : pyEndsWith (pyLower path) dotPdf with
      | false => rfl
      | true =>
        have hpdf := (pyEndsWith_iff _ _).mp hx
        have htxt := (pyEndsWith_iff _ _).mp h
        have heq : dotPdf = dotTxt := suffix_eq_of_length hpdf htxt (by decide)
        exact absurd heq (by decide)
    simp [get_loader, hnp, h]
  · intro h1 h2; simp [get_loader, h1, h2]

/-- Witness for C7 on the three extension classes (including the
spec's `.docx` scenario). -/
theorem get_loader_dispatch_witness :
    get_loader ("Report.PDF".data) = .ok (.pdf ("Report.PDF".data)) ∧
    get_loader ("notes.txt".data) = .ok (.text ("notes.txt".data) utf8Enc) ∧
    get_loader ("essay.docx".data) = .error (.valueError unsupportedMsg) :=
  ⟨(get_loader_dispatch ("Report.PDF".data)).1 (by decide),
   (get_loader_dispatch ("notes.txt".data)).2.1 (by decide),
   (get_loader_dispatch ("essay.docx".data)).2.2 (by decide) (by decide)⟩

/-- C8: querying the empty collection returns the empty result list
(for every ranking oracle, query vector and requested count), without
failing. -/
theorem query_empty_store (rank : RankOracle) (qe : EmbVector) (n : Nat) :
    query_documents rank emptyCollection qe n = ⟨[[]]⟩ := by
  simp [query_documents, emptyCollection]

/-- C9: an input whose stripped form is not one of the displayed
selection ids makes `choose_file` raise `FileNotFoundError` instead of
returning a path. -/
theorem choose_file_unrecognized (dir : Str) (listing : List DirEntry) (inp : Str)
    (rest : List Str) (h : pyStrip inp ∉ displayedIds listing) :
    (choose_file dir listing (inp :: rest)).2.2 = .error (.fileNotFound fnfMsg) := by
  have hget : pyDictGet (filesOf listing) (pyStrip inp) = none := by
    refine pyDictGet_none _ _ ?_
    intro p hp heq
    exact h (List.mem_map.mpr ⟨p, hp, heq⟩)
  simp [choose_file, hget]

/-- Witness for C9: selecting `7` in a one-file directory fails. -/
theorem choose_file_unrecognized_witness :
    (choose_file ("/d".data) [⟨"a.txt".data, true⟩] ["7".data]).2.2 =
      .error (.fileNotFound fnfMsg) :=
  choose_file_unrecognized ("/d".data) [⟨"a.txt".data, true⟩] ("7".data) [] (by decide)

/-- C10: `process` returns three equal-length parallel lists, so the
equal-length precondition of `add_documents` holds whenever the
embedding call returns one vector per text. -/
theorem process_triple_lengths (cs co : Int) (docs : List Doc) (col : Collection)
    (embs : List EmbVector) (h : embs.length = (process cs co docs).1.length) :
    (process cs co docs).1.length = (process cs co docs).2.1.length ∧
    (process cs co docs).1.length = (process cs co docs).2.2.length ∧
    ∃ col2, add_documents col (process cs co docs).1 (process cs co docs).2.1
      (process cs co docs).2.2 embs = .ok col2 := by
  refine ⟨by simp [process], by simp [process], ?_⟩
  unfold add_documents
  rw [if_pos ⟨by simp [process], by simp [process], h.symm⟩]
  exact ⟨_, rfl⟩

/-- Witness for C10 at a one-chunk document with one embedding. -/
theorem process_triple_lengths_witness :
    (process 512 50 [⟨"hi".data, []⟩]).1.length =
      (process 512 50 [⟨"hi".data, []⟩]).2.1.length ∧
    (process 512 50 [⟨"hi".data, []⟩]).1.length =
      (process 512 50 [⟨"hi".data, []⟩]).2.2.length ∧
    ∃ col2, add_documents emptyCollection (process 512 50 [⟨"hi".data, []⟩]).1
      (process 512 50 [⟨"hi".data, []⟩]).2.1 (process 512 50 [⟨"hi".data, []⟩]).2.2
      [[(0 : Int)]] = .ok col2 :=
  process_triple_lengths 512 50 [⟨"hi".data, []⟩] emptyCollection [[(0 : Int)]] (by decide)

end DocsLoader
